import Mathlib

/-!
Verification of the projection core of `stock_simulator.py`.

The projection engine `run_projections` and the price-sensitivity table built
in `main` / `generate_pdf_report` are embedded shallowly: Python floats become
rationals (`ℚ`), numpy arrays become `List ℚ`, and the dictionary lookups
`growth_inputs[stream][scenario]` (which may raise `KeyError`) become
`Option`-valued lookups, with `none` modelling a raised exception.
-/

/-- The three scenarios iterated by `main` (`scenarios = ["bear", "base", "bull"]`). -/
inductive Scenario where
  | bear
  | base
  | bull
deriving DecidableEq, Repr, Fintype

/-- The fixed scenario list of `main`, in its iteration order. -/
def scenariosList : List Scenario := [Scenario.bear, Scenario.base, Scenario.bull]

/-- One revenue stream: its current-year revenue (`rev_per_stream[stream]`) and its
per-scenario growth entries (`growth_inputs[stream]`, where a missing dictionary
entry is `none`). -/
structure RevStream where
  baseVal : ℚ
  growth : Scenario → Option ℚ
deriving DecidableEq

/-- The arguments `main` passes to `run_projections`: outstanding shares, the
projection horizon `years`, the current total revenue, the current operating
margin, the revenue streams, and the per-scenario terminal margins. -/
structure Params where
  sharesOutstanding : ℕ
  years : ℕ
  currentRevenue : ℚ
  currentMargin : ℚ
  streams : List RevStream
  finalMargins : Scenario → ℚ

/-- The inner accumulation loop of `run_projections`
(`year_rev = 0; for stream, base_val in rev_per_stream.items(): ...`):
each stream adds `base_val * (1 + g) ** year`; a missing growth entry
(`KeyError` in Python) aborts with `none`. -/
def yearRevAux (sc : Scenario) (year : ℕ) : List RevStream → ℚ → Option ℚ
  | [], acc => some acc
  | st :: rest, acc =>
    match st.growth sc with
    | none => none
    | some g => yearRevAux sc year rest (acc + st.baseVal * (1 + g) ^ year)

/-- Total projected revenue for one year (the body of `for year in range(1, years+1)`). -/
def yearRev (streams : List RevStream) (sc : Scenario) (year : ℕ) : Option ℚ :=
  yearRevAux sc year streams 0

/-- The revenue entries for the given list of years, failing if any year fails. -/
def revTail (streams : List RevStream) (sc : Scenario) : List ℕ → Option (List ℚ)
  | [] => some []
  | y :: rest =>
    match yearRev streams sc y with
    | none => none
    | some v => (revTail streams sc rest).map (fun l => v :: l)

/-- The `total_rev` array of `run_projections`: entry 0 is `current_revenue`,
entries 1..years come from compound per-stream growth. -/
def revenueSeries (p : Params) (sc : Scenario) : Option (List ℚ) :=
  (revTail p.streams sc ((List.range p.years).map (fun i => i + 1))).map
    (fun l => p.currentRevenue :: l)

/-- `np.linspace a b (n+1)`: `n+1` evenly spaced points from `a` to `b` inclusive;
with a single requested point numpy returns `[a]` without dividing. -/
def linspace (a b : ℚ) (n : ℕ) : List ℚ :=
  if n = 0 then [a]
  else (List.range (n + 1)).map (fun t : ℕ => a + (b - a) * (t : ℚ) / (n : ℚ))

/-- One scenario of `run_projections`: the revenue series, the net-income series
`total_rev * margins` with `margins = np.linspace(current_margin, final_margin,
years+1)`, and the EPS series `ni * 1e6 / shares_outstanding`. -/
def run_projections (p : Params) (sc : Scenario) : Option (List ℚ × List ℚ × List ℚ) :=
  (revenueSeries p sc).map (fun rev =>
    let margins := linspace p.currentMargin (p.finalMargins sc) p.years
    let ni := List.zipWith (fun a b => a * b) rev margins
    let eps := ni.map (fun x => x * 1000000 / (p.sharesOutstanding : ℚ))
    (rev, ni, eps))

/-- The whole `run_projections` call of `main`, which iterates
`scenarios = [bear, base, bull]` and raises as soon as any lookup fails. -/
def runProjectionsAll (p : Params) :
    Option ((List ℚ × List ℚ × List ℚ) × (List ℚ × List ℚ × List ℚ) ×
      (List ℚ × List ℚ × List ℚ)) := do
  let rBear ← run_projections p Scenario.bear
  let rBase ← run_projections p Scenario.base
  let rBull ← run_projections p Scenario.bull
  pure (rBear, rBase, rBull)

/-- One row of the price table: for each PE multiple, `eps[s][-1] * pe_ratio`
(`main` lines 157-160 and `generate_pdf_report` lines 414-419); indexing an
empty series raises, modelled by `none`. -/
def priceRow (eps : List ℚ) : List ℚ → Option (List ℚ)
  | [] => some []
  | pe :: rest =>
    match eps.getLast? with
    | none => none
    | some e => (priceRow eps rest).map (fun l => e * pe :: l)

/-- The rows of the valuation table for the given scenario order. -/
def buildRows (peRatios : List ℚ) (eps : Scenario → List ℚ) :
    List Scenario → Option (List (List ℚ))
  | [] => some []
  | s :: rest =>
    match priceRow (eps s) peRatios with
    | none => none
    | some row => (buildRows peRatios eps rest).map (fun l => row :: l)

/-- The valuation table of `main`: one row per scenario, one column per PE
multiple, entry `eps[s][-1] * pe_ratio`. -/
def buildValuationTable (peRatios : List ℚ) (eps : Scenario → List ℚ) :
    Option (List (List ℚ)) :=
  buildRows peRatios eps scenariosList

/-- The hardcoded PE multiples of `main` (`pe_ratios = [20, 40, 60, 80, 100, 120]`). -/
def peRatiosDefault : List ℚ := [20, 40, 60, 80, 100, 120]

/-- Growth value of a stream with `none` defaulted to 0; on inputs where every
lookup succeeds this agrees with the Python dictionary access. -/
def growthD (st : RevStream) (sc : Scenario) : ℚ := (st.growth sc).getD 0

/-- Closed form of the revenue series entry at period `t`. -/
def totalRevAt (p : Params) (sc : Scenario) : ℕ → ℚ
  | 0 => p.currentRevenue
  | t + 1 => (p.streams.map (fun st => st.baseVal * (1 + growthD st sc) ^ (t + 1))).sum

/-- Closed form of the interpolated margin at period `t`. -/
def marginAt (p : Params) (sc : Scenario) (t : ℕ) : ℚ :=
  if p.years = 0 then p.currentMargin
  else p.currentMargin + (p.finalMargins sc - p.currentMargin) * t / p.years

/-- Closed form of net income at period `t`. -/
def niAt (p : Params) (sc : Scenario) (t : ℕ) : ℚ :=
  totalRevAt p sc t * marginAt p sc t

/-- Closed form of EPS at period `t`. -/
def epsAt (p : Params) (sc : Scenario) (t : ℕ) : ℚ :=
  niAt p sc t * 1000000 / (p.sharesOutstanding : ℚ)

/-- Revenue series as a list of the closed-form values. -/
def revList (p : Params) (sc : Scenario) : List ℚ :=
  (List.range (p.years + 1)).map (totalRevAt p sc)

/-- Net-income series as a list of the closed-form values. -/
def niList (p : Params) (sc : Scenario) : List ℚ :=
  (List.range (p.years + 1)).map (niAt p sc)

/-- EPS series as a list of the closed-form values. -/
def epsList (p : Params) (sc : Scenario) : List ℚ :=
  (List.range (p.years + 1)).map (epsAt p sc)

/-- The terminal net income recomputed by `generate_pdf_report`
(`revenues[s][-1] * final_margins[s]`, line 398). -/
def reportTerminalNI (revs : List ℚ) (finalMargin : ℚ) : ℚ :=
  revs.getLastD 0 * finalMargin

/-- Growth assumptions of the worked example in the spec: 5% bear, 10% base,
20% bull, shared by both segments. -/
def gAB : Scenario → Option ℚ := fun sc =>
  match sc with
  | Scenario.bear => some (1 / 20)
  | Scenario.base => some (1 / 10)
  | Scenario.bull => some (1 / 5)

/-- The worked example of the spec: segments A = 1000 and B = 500, horizon 2,
current margin 20%, terminal margins 15% / 20% / 25%, 100,000,000 shares. -/
def pC2 : Params where
  sharesOutstanding := 100000000
  years := 2
  currentRevenue := 1500
  currentMargin := 1 / 5
  streams := [⟨1000, gAB⟩, ⟨500, gAB⟩]
  finalMargins := fun sc =>
    match sc with
    | Scenario.bear => 3 / 20
    | Scenario.base => 1 / 5
    | Scenario.bull => 1 / 4

/-- A parameter set whose only growth value is 5 (i.e. 500%), far outside the
policy bounds [-0.5, 1.0]. -/
def pOut : Params where
  sharesOutstanding := 1000000
  years := 1
  currentRevenue := 100
  currentMargin := 1 / 5
  streams := [⟨100, fun _ => some 5⟩]
  finalMargins := fun _ => 1 / 5

/-- A zero-horizon parameter set whose single segment has no growth entries at
all: with `years = 0` the projection loop never looks growth rates up. -/
def pH0 : Params where
  sharesOutstanding := 1000000
  years := 0
  currentRevenue := 1500
  currentMargin := 1 / 5
  streams := [⟨1500, fun _ => none⟩]
  finalMargins := fun _ => 1 / 4

theorem yearRevAux_some (sc : Scenario) (y : ℕ) (l : List RevStream) (acc v : ℚ)
    (h : yearRevAux sc y l acc = some v) :
    v = acc + (l.map (fun st => st.baseVal * (1 + growthD st sc) ^ y)).sum := by
  induction l generalizing acc with
  | nil =>
    simp only [yearRevAux, Option.some.injEq] at h
    simp [← h]
  | cons st rest ih =>
    simp only [yearRevAux] at h
    cases hg : st.growth sc with
    | none => rw [hg] at h; exact absurd h (by simp)
    | some g =>
      rw [hg] at h
      have hv := ih _ h
      have hgd : growthD st sc = g := by simp [growthD, hg]
      simp only [List.map_cons, List.sum_cons, hgd]
      rw [hv]; ring

theorem yearRevAux_none_iff (sc : Scenario) (y : ℕ) (l : List RevStream) (acc : ℚ) :
    yearRevAux sc y l acc = none ↔ ∃ st ∈ l, st.growth sc = none := by
  induction l generalizing acc with
  | nil => simp [yearRevAux]
  | cons st rest ih =>
    cases hg : st.growth sc with
    | none =>
      constructor
      · intro _; exact ⟨st, by simp, hg⟩
      · intro _; simp [yearRevAux, hg]
    | some g => simp [yearRevAux, hg, ih]

theorem revTail_some (streams : List RevStream) (sc : Scenario) (ys : List ℕ) (l : List ℚ)
    (h : revTail streams sc ys = some l) :
    l = ys.map (fun y =>
      (streams.map (fun st => st.baseVal * (1 + growthD st sc) ^ y)).sum) := by
  induction ys generalizing l with
  | nil =>
    simp only [revTail, Option.some.injEq] at h
    simp [← h]
  | cons y rest ih =>
    simp only [revTail] at h
    cases hy : yearRev streams sc y with
    | none => rw [hy] at h; exact absurd h (by simp)
    | some v =>
      rw [hy, Option.map_eq_some'] at h
      obtain ⟨l2, hl2, hcons⟩ := h
      have hv := yearRevAux_some sc y streams 0 v hy
      rw [← hcons, List.map_cons, ih l2 hl2, hv, zero_add]

theorem revTail_none_iff (streams : List RevStream) (sc : Scenario) (ys : List ℕ) :
    revTail streams sc ys = none ↔ (ys ≠ [] ∧ ∃ st ∈ streams, st.growth sc = none) := by
  induction ys with
  | nil => simp [revTail]
  | cons y rest ih =>
    cases hy : yearRev streams sc y with
    | none =>
      have hE := (yearRevAux_none_iff sc y streams 0).mp hy
      simp [revTail, hy, hE]
    | some v =>
      have hnot : ¬ ∃ st ∈ streams, st.growth sc = none := by
        intro hc
        rw [← yearRevAux_none_iff sc y streams 0] at hc
        have hy2 : yearRevAux sc y streams 0 = some v := hy
        rw [hy2] at hc
        exact absurd hc (by simp)
      simp [revTail, hy, Option.map_eq_none', ih, hnot]

theorem zipWith_map_same {α β γ δ : Type} (f : β → γ → δ) (g : α → β) (h : α → γ)
    (l : List α) :
    List.zipWith f (l.map g) (l.map h) = l.map (fun x => f (g x) (h x)) := by
  induction l with
  | nil => rfl
  | cons a rest ih => simp [ih]

theorem linspace_eq_map (p : Params) (sc : Scenario) :
    linspace p.currentMargin (p.finalMargins sc) p.years =
      (List.range (p.years + 1)).map (marginAt p sc) := by
  by_cases h : p.years = 0
  · simp [linspace, marginAt, h, List.range_succ]
  · rw [linspace, if_neg h]
    refine List.map_congr_left ?_
    intro t _
    rw [marginAt, if_neg h]

theorem run_projections_some_eq (p : Params) (sc : Scenario) (r n e : List ℚ)
    (h : run_projections p sc = some (r, n, e)) :
    r = revList p sc ∧ n = niList p sc ∧ e = epsList p sc := by
  rw [run_projections, Option.map_eq_some'] at h
  obtain ⟨rev, hrev, heq⟩ := h
  rw [revenueSeries, Option.map_eq_some'] at hrev
  obtain ⟨tail, htail, hrevEq⟩ := hrev
  have htail2 := revTail_some _ _ _ _ htail
  have hrevList : rev = revList p sc := by
    rw [← hrevEq, revList, List.range_succ_eq_map, List.map_cons, List.map_map,
      htail2, List.map_map]
    constructor
  simp only [Prod.mk.injEq] at heq
  obtain ⟨h1, h2, h3⟩ := heq
  refine ⟨by rw [← h1, hrevList], ?_, ?_⟩
  · rw [← h2, hrevList, revList, linspace_eq_map, zipWith_map_same, niList]
    rfl
  · rw [← h3, hrevList, revList, linspace_eq_map, zipWith_map_same,
      List.map_map, epsList]
    rfl

theorem range_map_getD (m : ℕ) (f : ℕ → ℚ) (t : ℕ) (ht : t < m) :
    ((List.range m).map f).getD t 0 = f t := by
  rw [List.getD_eq_getElem?_getD, List.getElem?_map, List.getElem?_range ht]
  rfl

theorem range_map_getLastD (m : ℕ) (f : ℕ → ℚ) :
    ((List.range (m + 1)).map f).getLastD 0 = f m := by
  rw [List.range_succ, List.map_append]
  simp

theorem run_projections_none_iff (p : Params) (sc : Scenario) :
    run_projections p sc = none ↔
      (1 ≤ p.years ∧ ∃ st ∈ p.streams, st.growth sc = none) := by
  rw [run_projections, Option.map_eq_none', revenueSeries, Option.map_eq_none',
    revTail_none_iff]
  simp [Nat.one_le_iff_ne_zero, List.range_eq_nil]

theorem runProjectionsAll_none_iff (p : Params) :
    runProjectionsAll p = none ↔ ∃ sc, run_projections p sc = none := by
  cases hb : run_projections p Scenario.bear with
  | none =>
    simp only [runProjectionsAll, hb, Option.none_bind]
    exact iff_of_true rfl ⟨Scenario.bear, hb⟩
  | some vb =>
    cases hs : run_projections p Scenario.base with
    | none =>
      simp only [runProjectionsAll, hb, hs, Option.some_bind, Option.none_bind]
      exact iff_of_true rfl ⟨Scenario.base, hs⟩
    | some vs =>
      cases hl : run_projections p Scenario.bull with
      | none =>
        simp only [runProjectionsAll, hb, hs, hl, Option.some_bind, Option.none_bind]
        exact iff_of_true rfl ⟨Scenario.bull, hl⟩
      | some vl =>
        simp only [runProjectionsAll, hb, hs, hl, Option.some_bind]
        refine iff_of_false (by simp) ?_
        rintro ⟨sc, hsc⟩
        cases sc
        · rw [hb] at hsc; exact absurd hsc (by simp)
        · rw [hs] at hsc; exact absurd hsc (by simp)
        · rw [hl] at hsc; exact absurd hsc (by simp)

theorem marginAt_zero (p : Params) (sc : Scenario) :
    marginAt p sc 0 = p.currentMargin := by
  by_cases h : p.years = 0 <;> simp [marginAt, h]

theorem totalRevAt_nonneg (p : Params) (sc : Scenario)
    (hbase : ∀ st ∈ p.streams, 0 ≤ st.baseVal)
    (hgrow : ∀ st ∈ p.streams, -1 ≤ growthD st sc) (t : ℕ) :
    0 ≤ totalRevAt p sc (t + 1) := by
  refine List.sum_nonneg ?_
  intro x hx
  rw [List.mem_map] at hx
  obtain ⟨st, hst, hxe⟩ := hx
  rw [← hxe]
  have h1 : (0:ℚ) ≤ 1 + growthD st sc := by linarith [hgrow st hst]
  exact mul_nonneg (hbase st hst) (pow_nonneg h1 _)

theorem totalRevAt_mono (p : Params) (A B : Scenario)
    (hbase : ∀ st ∈ p.streams, 0 ≤ st.baseVal)
    (hgrow : ∀ st ∈ p.streams, -1 ≤ growthD st B)
    (hAB : ∀ st ∈ p.streams, growthD st B ≤ growthD st A) (t : ℕ) :
    totalRevAt p B t ≤ totalRevAt p A t := by
  cases t with
  | zero => exact le_refl _
  | succ k =>
    refine List.sum_le_sum ?_
    intro st hst
    have h1 : (0:ℚ) ≤ 1 + growthD st B := by linarith [hgrow st hst]
    refine mul_le_mul_of_nonneg_left ?_ (hbase st hst)
    exact pow_le_pow_left₀ h1 (by linarith [hAB st hst]) _

theorem marginAt_mono (p : Params) (A B : Scenario)
    (hfAB : p.finalMargins B ≤ p.finalMargins A) (t : ℕ) :
    marginAt p B t ≤ marginAt p A t := by
  by_cases h : p.years = 0
  · simp [marginAt, h]
  · rw [marginAt, marginAt, if_neg h, if_neg h]
    have hN : (0:ℚ) < (p.years : ℚ) := by exact_mod_cast Nat.pos_of_ne_zero h
    have ht : (0:ℚ) ≤ (t:ℚ) := by positivity
    have h2 := div_le_div_of_nonneg_right
      (mul_le_mul_of_nonneg_right (sub_le_sub_right hfAB p.currentMargin) ht)
      (le_of_lt hN)
    linarith

theorem marginAt_nonneg (p : Params) (sc : Scenario)
    (hcm : 0 ≤ p.currentMargin) (hfm : 0 ≤ p.finalMargins sc)
    (t : ℕ) (ht : t ≤ p.years) :
    0 ≤ marginAt p sc t := by
  by_cases h : p.years = 0
  · simpa [marginAt, h] using hcm
  · rw [marginAt, if_neg h]
    have hN : (0:ℚ) < (p.years : ℚ) := by exact_mod_cast Nat.pos_of_ne_zero h
    have htQ : (t:ℚ) ≤ (p.years : ℚ) := by exact_mod_cast ht
    have ht0 : (0:ℚ) ≤ (t:ℚ) := by positivity
    have key : p.currentMargin + (p.finalMargins sc - p.currentMargin) * t / p.years
        = (p.currentMargin * ((p.years : ℚ) - t) + p.finalMargins sc * t) /
          (p.years : ℚ) := by
      field_simp
      ring
    rw [key]
    have hnum : 0 ≤ p.currentMargin * ((p.years : ℚ) - t) + p.finalMargins sc * t :=
      add_nonneg (mul_nonneg hcm (by linarith)) (mul_nonneg hfm ht0)
    exact div_nonneg hnum (le_of_lt hN)

theorem marginAt_last (p : Params) (sc : Scenario) (h : 1 ≤ p.years) :
    marginAt p sc p.years = p.finalMargins sc := by
  have h0 : p.years ≠ 0 := by omega
  rw [marginAt, if_neg h0]
  have hN : ((p.years : ℚ)) ≠ 0 := by exact_mod_cast h0
  field_simp

theorem priceRow_some_of_getLast (l : List ℚ) (e : ℚ) (he : l.getLast? = some e)
    (pes : List ℚ) : priceRow l pes = some (pes.map (fun m => e * m)) := by
  induction pes with
  | nil => rfl
  | cons pe rest ih => simp [priceRow, he, ih]

theorem priceRow_some (l : List ℚ) (pes row : List ℚ)
    (h : priceRow l pes = some row) :
    row = pes.map (fun m => l.getLastD 0 * m) := by
  cases pes with
  | nil =>
    simp only [priceRow, Option.some.injEq] at h
    simp [← h]
  | cons pe rest =>
    simp only [priceRow] at h
    cases he : l.getLast? with
    | none => rw [he] at h; exact absurd h (by simp)
    | some e =>
      rw [he, priceRow_some_of_getLast l e he rest] at h
      simp only [Option.map_some', Option.some.injEq] at h
      rw [← h]
      simp [List.getLastD_eq_getLast?, he]

theorem priceRow_none_iff (l pes : List ℚ) :
    priceRow l pes = none ↔ (pes ≠ [] ∧ l = []) := by
  cases pes with
  | nil => simp [priceRow]
  | cons pe rest =>
    cases he : l.getLast? with
    | none =>
      have hl : l = [] := List.getLast?_eq_none_iff.mp he
      simp [priceRow, he, hl]
    | some e =>
      have hl : l ≠ [] := by
        intro hc; rw [hc] at he; exact absurd he (by simp)
      rw [priceRow_some_of_getLast l e he]
      simp [hl]

theorem priceRow_double (l pes row : List ℚ) (h : priceRow l pes = some row) :
    priceRow l (pes.map (fun m => 2 * m)) =
      some (pes.map (fun m => 2 * (l.getLastD 0 * m))) := by
  cases pes with
  | nil => rfl
  | cons pe rest =>
    cases he : l.getLast? with
    | none => simp [priceRow, he] at h
    | some e =>
      have hd : l.getLastD 0 = e := by simp [List.getLastD_eq_getLast?, he]
      rw [priceRow_some_of_getLast l e he, List.map_map, hd]
      congr 1
      refine List.map_congr_left ?_
      intro m _
      simp [Function.comp]
      ring

theorem buildRows_some (peR : List ℚ) (eps : Scenario → List ℚ)
    (scs : List Scenario) (tbl : List (List ℚ))
    (h : buildRows peR eps scs = some tbl) :
    tbl = scs.map (fun s => peR.map (fun m => (eps s).getLastD 0 * m)) := by
  induction scs generalizing tbl with
  | nil =>
    simp only [buildRows, Option.some.injEq] at h
    simp [← h]
  | cons s rest ih =>
    simp only [buildRows] at h
    cases hr : priceRow (eps s) peR with
    | none => rw [hr] at h; exact absurd h (by simp)
    | some row =>
      rw [hr, Option.map_eq_some'] at h
      obtain ⟨t2, ht2, hcons⟩ := h
      rw [← hcons, List.map_cons, ih t2 ht2, priceRow_some _ _ _ hr]

theorem buildRows_none_iff (peR : List ℚ) (eps : Scenario → List ℚ)
    (scs : List Scenario) :
    buildRows peR eps scs = none ↔ ∃ s ∈ scs, priceRow (eps s) peR = none := by
  induction scs with
  | nil => simp [buildRows]
  | cons s rest ih =>
    cases hr : priceRow (eps s) peR with
    | none =>
      constructor
      · intro _; exact ⟨s, by simp, hr⟩
      · intro _; simp [buildRows, hr]
    | some row => simp [buildRows, hr, Option.map_eq_none', ih]

theorem buildRows_double (peR : List ℚ) (eps : Scenario → List ℚ)
    (scs : List Scenario) (tbl : List (List ℚ))
    (h : buildRows peR eps scs = some tbl) :
    buildRows (peR.map (fun m => 2 * m)) eps scs =
      some (scs.map (fun s => peR.map (fun m => 2 * ((eps s).getLastD 0 * m)))) := by
  induction scs generalizing tbl with
  | nil => simp [buildRows]
  | cons s rest ih =>
    simp only [buildRows] at h
    cases hr : priceRow (eps s) peR with
    | none => rw [hr] at h; exact absurd h (by simp)
    | some row =>
      rw [hr, Option.map_eq_some'] at h
      obtain ⟨t2, ht2, _⟩ := h
      simp [buildRows, priceRow_double _ _ _ hr, ih t2 ht2]

/-- C1: for every scenario and every period of the horizon, the EPS series
returned by `run_projections` equals net income times 1,000,000 divided by
`shares_outstanding` — the millions-to-base-currency factor is applied exactly
once. -/
theorem eps_conversion_once (p : Params) (sc : Scenario) (r n e : List ℚ)
    (h : run_projections p sc = some (r, n, e)) (t : ℕ) (ht : t ≤ p.years) :
    e.getD t 0 = n.getD t 0 * 1000000 / (p.sharesOutstanding : ℚ) := by
  obtain ⟨hr, hn, he⟩ := run_projections_some_eq p sc r n e h
  have htlt : t < p.years + 1 := by omega
  rw [hn, he, niList, epsList, range_map_getD _ _ _ htlt, range_map_getD _ _ _ htlt]
  rfl

/-- C1 witness: the conversion identity instantiated at the worked example,
base scenario, period 2. -/
theorem eps_conversion_once_witness :
    ([3, 33/10, 363/100] : List ℚ).getD 2 0 =
      ([300, 330, 363] : List ℚ).getD 2 0 * 1000000 / (pC2.sharesOutstanding : ℚ) :=
  eps_conversion_once pC2 Scenario.base [1500, 1650, 1815] [300, 330, 363]
    [3, 33/10, 363/100]
    (by norm_num [run_projections, revenueSeries, revTail, yearRev, yearRevAux,
      linspace, pC2, gAB, List.range_succ]) 2 (by decide)

/-- C2: on the worked example (segments 1000 and 500, horizon 2, margins 20%,
base growth 10%, 100,000,000 shares) the base scenario has period-2 revenue
1815, net income 363 and EPS 3.63, and the PE-20 price entry is 72.60. -/
theorem worked_example_base :
    run_projections pC2 Scenario.base =
      some ([1500, 1650, 1815], [300, 330, 363], [3, 33/10, 363/100]) ∧
    priceRow [3, 33/10, 363/100] [20] = some [363/5] := by
  constructor
  · norm_num [run_projections, revenueSeries, revTail, yearRev, yearRevAux,
      linspace, pC2, gAB, List.range_succ]
  · norm_num [priceRow, List.getLast?]

/-- C3: if scenario A dominates scenario B segment-wise in growth and in
terminal margin (with non-negative base revenues, growth ≥ -1 and margins in
[0, 1]) then A's revenue and net income dominate B's at every period. -/
theorem scenario_monotonicity (p : Params) (A B : Scenario)
    (hbase : ∀ st ∈ p.streams, 0 ≤ st.baseVal)
    (hgrow : ∀ st ∈ p.streams, ∀ sc, -1 ≤ growthD st sc)
    (hAB : ∀ st ∈ p.streams, growthD st B ≤ growthD st A)
    (hcm0 : 0 ≤ p.currentMargin) (hcm1 : p.currentMargin ≤ 1)
    (hfm0 : ∀ sc, 0 ≤ p.finalMargins sc) (hfm1 : ∀ sc, p.finalMargins sc ≤ 1)
    (hfAB : p.finalMargins B ≤ p.finalMargins A)
    (rA nA eA rB nB eB : List ℚ)
    (hA : run_projections p A = some (rA, nA, eA))
    (hB : run_projections p B = some (rB, nB, eB))
    (t : ℕ) (ht : t ≤ p.years) :
    rB.getD t 0 ≤ rA.getD t 0 ∧ nB.getD t 0 ≤ nA.getD t 0 := by
  obtain ⟨hrA, hnA, -⟩ := run_projections_some_eq p A rA nA eA hA
  obtain ⟨hrB, hnB, -⟩ := run_projections_some_eq p B rB nB eB hB
  have htlt : t < p.years + 1 := by omega
  rw [hrA, hrB, hnA, hnB, revList, revList, niList, niList,
    range_map_getD _ _ _ htlt, range_map_getD _ _ _ htlt,
    range_map_getD _ _ _ htlt, range_map_getD _ _ _ htlt]
  have hrev := totalRevAt_mono p A B hbase (fun st hst => hgrow st hst B) hAB t
  refine ⟨hrev, ?_⟩
  rw [niAt, niAt]
  cases t with
  | zero => simp [totalRevAt, marginAt_zero]
  | succ k =>
    have hrevB0 : 0 ≤ totalRevAt p B (k + 1) :=
      totalRevAt_nonneg p B hbase (fun st hst => hgrow st hst B) k
    have hrevA0 : 0 ≤ totalRevAt p A (k + 1) :=
      totalRevAt_nonneg p A hbase (fun st hst => hgrow st hst A) k
    have hmB0 : 0 ≤ marginAt p B (k + 1) :=
      marginAt_nonneg p B hcm0 (hfm0 B) (k + 1) ht
    have hm := marginAt_mono p A B hfAB (k + 1)
    exact mul_le_mul hrev hm hmB0 hrevA0

/-- C3 witness: the dominance instantiated at the worked example with A = bull,
B = bear, at period 2. -/
theorem scenario_monotonicity_witness :
    ([1500, 1575, 6615/4] : List ℚ).getD 2 0 ≤
      ([1500, 1800, 2160] : List ℚ).getD 2 0 ∧
    ([300, 2205/8, 3969/16] : List ℚ).getD 2 0 ≤
      ([300, 405, 540] : List ℚ).getD 2 0 :=
  scenario_monotonicity pC2 Scenario.bull Scenario.bear
    (by intro st hst; fin_cases hst <;> norm_num)
    (by intro st hst sc; fin_cases hst <;> cases sc <;> norm_num [growthD, gAB])
    (by intro st hst; fin_cases hst <;> norm_num [growthD, gAB])
    (by norm_num [pC2]) (by norm_num [pC2])
    (by intro sc; cases sc <;> norm_num [pC2])
    (by intro sc; cases sc <;> norm_num [pC2])
    (by norm_num [pC2])
    [1500, 1800, 2160] [300, 405, 540] [3, 81/20, 27/5]
    [1500, 1575, 6615/4] [300, 2205/8, 3969/16] [3, 441/160, 3969/1600]
    (by norm_num [run_projections, revenueSeries, revTail, yearRev, yearRevAux,
      linspace, pC2, gAB, List.range_succ])
    (by norm_num [run_projections, revenueSeries, revTail, yearRev, yearRevAux,
      linspace, pC2, gAB, List.range_succ])
    2 (by decide)

/-- C4: every entry of a successfully built valuation table equals the
scenario's terminal EPS times the PE multiple, with no rounding applied, and
doubling every multiple exactly doubles every implied price. -/
theorem valuation_table_linear (peR : List ℚ) (eps : Scenario → List ℚ)
    (tbl : List (List ℚ)) (h : buildValuationTable peR eps = some tbl) :
    tbl = scenariosList.map (fun s => peR.map (fun m => (eps s).getLastD 0 * m)) ∧
    buildValuationTable (peR.map (fun m => 2 * m)) eps =
      some (scenariosList.map (fun s =>
        peR.map (fun m => 2 * ((eps s).getLastD 0 * m)))) := by
  rw [buildValuationTable] at h
  refine ⟨buildRows_some _ _ _ _ h, ?_⟩
  rw [buildValuationTable]
  exact buildRows_double _ _ _ _ h

/-- C4 witness: the table for a single multiple 20 on the worked example's
terminal EPS 3.63, and its doubling to multiple 40. -/
theorem valuation_table_linear_witness :
    ([[363/5], [363/5], [363/5]] : List (List ℚ)) =
      scenariosList.map (fun s => ([20] : List ℚ).map
        (fun m => (((fun _ : Scenario => ([363/100] : List ℚ)) s).getLastD 0 * m))) ∧
    buildValuationTable (([20] : List ℚ).map (fun m => 2 * m))
        (fun _ : Scenario => ([363/100] : List ℚ)) =
      some (scenariosList.map (fun s => ([20] : List ℚ).map
        (fun m => 2 * (((fun _ : Scenario => ([363/100] : List ℚ)) s).getLastD 0 * m)))) :=
  valuation_table_linear [20] (fun _ => [363/100]) [[363/5], [363/5], [363/5]]
    (by norm_num [buildValuationTable, buildRows, priceRow, scenariosList,
      List.getLast?])

/-- C5 counterexample: the table construction succeeds on an empty PE-multiple
set and on a negative multiple, where the claim demands failure. -/
theorem valuation_no_validation :
    buildValuationTable [] (fun _ => [363/100]) = some [[], [], []] ∧
    buildValuationTable [-5] (fun _ => [363/100]) =
      some [[-363/20], [-363/20], [-363/20]] := by
  constructor <;> norm_num [buildValuationTable, buildRows, priceRow,
    scenariosList, List.getLast?]

/-- C5 amended: the valuation-table construction performs no validation of the
PE multiples — it succeeds on an empty set and on non-positive values — and it
fails exactly when the multiple set is nonempty and some scenario's EPS series
has no periods. -/
theorem valuation_failure_iff (peR : List ℚ) (eps : Scenario → List ℚ) :
    buildValuationTable peR eps = none ↔ (peR ≠ [] ∧ ∃ sc, eps sc = []) := by
  rw [buildValuationTable, buildRows_none_iff]
  constructor
  · rintro ⟨s, -, hs⟩
    rw [priceRow_none_iff] at hs
    exact ⟨hs.1, s, hs.2⟩
  · rintro ⟨hne, s, hs⟩
    exact ⟨s, by cases s <;> simp [scenariosList],
      (priceRow_none_iff _ _).mpr ⟨hne, hs⟩⟩

/-- C6 counterexample: `pOut`'s only growth value is 5 (i.e. 500%), far outside
the policy bounds [-0.5, 1.0], yet `run_projections` succeeds on it instead of
failing with a validation error. -/
theorem no_bounds_validation :
    (∀ st ∈ pOut.streams, ∀ sc, st.growth sc = some 5) ∧ ¬ ((5:ℚ) ≤ 1) ∧
    runProjectionsAll pOut =
      some (([100, 600], [20, 120], [20, 120]),
        ([100, 600], [20, 120], [20, 120]),
        ([100, 600], [20, 120], [20, 120])) := by
  refine ⟨?_, by norm_num, ?_⟩
  · intro st hst sc
    fin_cases hst
    rfl
  · norm_num [runProjectionsAll, run_projections, revenueSeries, revTail,
      yearRev, yearRevAux, linspace, pOut, List.range_succ]

/-- C6 amended: the engine call fails (a key-lookup error) exactly when the
horizon is at least 1 and some segment lacks a growth-rate entry for one of the
three scenarios; out-of-policy growth or margin values never cause failure. -/
theorem engine_failure_iff (p : Params) :
    runProjectionsAll p = none ↔
      (1 ≤ p.years ∧ ∃ st ∈ p.streams, ∃ sc, st.growth sc = none) := by
  rw [runProjectionsAll_none_iff]
  constructor
  · rintro ⟨sc, hsc⟩
    rw [run_projections_none_iff] at hsc
    obtain ⟨hy, st, hst, hg⟩ := hsc
    exact ⟨hy, st, hst, sc, hg⟩
  · rintro ⟨hy, st, hst, sc, hg⟩
    exact ⟨sc, (run_projections_none_iff p sc).mpr ⟨hy, st, hst, hg⟩⟩

/-- C7: when the current revenue equals the sum of the segment revenues (as
`get_inputs` line 49 establishes), period 0 of the revenue series returned by
`run_projections` equals that sum, and it is the same for every scenario. -/
theorem period_zero_revenue (p : Params)
    (hsum : p.currentRevenue = (p.streams.map (fun st => st.baseVal)).sum)
    (sc sc2 : Scenario) (r n e r2 n2 e2 : List ℚ)
    (h : run_projections p sc = some (r, n, e))
    (h2 : run_projections p sc2 = some (r2, n2, e2)) :
    r.getD 0 0 = (p.streams.map (fun st => st.baseVal)).sum ∧
    r2.getD 0 0 = r.getD 0 0 := by
  obtain ⟨hr, -, -⟩ := run_projections_some_eq p sc r n e h
  obtain ⟨hr2, -, -⟩ := run_projections_some_eq p sc2 r2 n2 e2 h2
  have h0 : (0:ℕ) < p.years + 1 := by omega
  rw [hr, hr2, revList, revList, range_map_getD _ _ _ h0, range_map_getD _ _ _ h0]
  exact ⟨hsum, rfl⟩

/-- C7 witness: period-0 revenue of the worked example is 1500 = 1000 + 500 in
both the base and the bull scenario. -/
theorem period_zero_revenue_witness :
    ([1500, 1650, 1815] : List ℚ).getD 0 0 =
      (pC2.streams.map (fun st => st.baseVal)).sum ∧
    ([1500, 1800, 2160] : List ℚ).getD 0 0 =
      ([1500, 1650, 1815] : List ℚ).getD 0 0 :=
  period_zero_revenue pC2 (by norm_num [pC2]) Scenario.base Scenario.bull
    [1500, 1650, 1815] [300, 330, 363] [3, 33/10, 363/100]
    [1500, 1800, 2160] [300, 405, 540] [3, 81/20, 27/5]
    (by norm_num [run_projections, revenueSeries, revTail, yearRev, yearRevAux,
      linspace, pC2, gAB, List.range_succ])
    (by norm_num [run_projections, revenueSeries, revTail, yearRev, yearRevAux,
      linspace, pC2, gAB, List.range_succ])

/-- C8: a zero horizon yields, in every scenario, singleton series carrying the
period-0 values with margin exactly `current_operating_margin`; the margin
interpolation performs no division and the call cannot fail. -/
theorem horizon_zero (p : Params) (h : p.years = 0) (sc : Scenario) :
    run_projections p sc =
      some ([p.currentRevenue], [p.currentRevenue * p.currentMargin],
        [p.currentRevenue * p.currentMargin * 1000000 /
          (p.sharesOutstanding : ℚ)]) := by
  simp [run_projections, revenueSeries, revTail, linspace, h]

/-- C8 witness: the zero-horizon result on `pH0`, whose single segment has no
growth entries at all — the engine still succeeds. -/
theorem horizon_zero_witness :
    run_projections pH0 Scenario.base =
      some ([pH0.currentRevenue], [pH0.currentRevenue * pH0.currentMargin],
        [pH0.currentRevenue * pH0.currentMargin * 1000000 /
          (pH0.sharesOutstanding : ℚ)]) :=
  horizon_zero pH0 rfl Scenario.base

/-- C9: determinism — the engine is embedded as a pure function of its
parameters (it reads no hidden state and performs no I/O), so identical inputs
produce identical revenue, net-income and EPS series. -/
theorem engine_deterministic (p q : Params) (h : p = q) :
    runProjectionsAll p = runProjectionsAll q := by
  rw [h]

/-- C9 witness: two identical runs on the worked example coincide. -/
theorem engine_deterministic_witness :
    runProjectionsAll pC2 = runProjectionsAll pC2 :=
  engine_deterministic pC2 pC2 rfl

/-- C10: on any horizon of at least one period (the data-model invariant), the
PDF report's recomputed terminal net income `revenues[s][-1] * final_margins[s]`
equals the engine's own `net_income[s][-1]`, because the interpolated margin
sequence ends exactly at the scenario's terminal margin. -/
theorem report_terminal_ni_agrees (p : Params) (h1 : 1 ≤ p.years) (sc : Scenario)
    (r n e : List ℚ) (h : run_projections p sc = some (r, n, e)) :
    reportTerminalNI r (p.finalMargins sc) = n.getLastD 0 := by
  obtain ⟨hr, hn, -⟩ := run_projections_some_eq p sc r n e h
  rw [reportTerminalNI, hr, hn, revList, niList, range_map_getLastD,
    range_map_getLastD, niAt, marginAt_last p sc h1]

/-- C10 witness: on the worked example's base scenario, 1815 * 0.20 equals the
engine's terminal net income 363. -/
theorem report_terminal_ni_agrees_witness :
    reportTerminalNI [1500, 1650, 1815] (pC2.finalMargins Scenario.base) =
      ([300, 330, 363] : List ℚ).getLastD 0 :=
  report_terminal_ni_agrees pC2 (by decide) Scenario.base
    [1500, 1650, 1815] [300, 330, 363] [3, 33/10, 363/100]
    (by norm_num [run_projections, revenueSeries, revTail, yearRev, yearRevAux,
      linspace, pC2, gAB, List.range_succ])
